import Mathlib

/-!
Shallow embedding of `src/retail/notebooks/utils.py`.

Dataframes are embedded as Lean lists of rows; numeric values are exact
rationals `ℚ` (the Python code computes with floats; the spec's arithmetic
claims are stated over exact arithmetic).  `pandas.sort_values` is embedded
as a sort producing a non-increasing permutation (pandas' default quicksort
gives no stability guarantee, and none of the properties below depend on
tie order).  `numpy.cumsum` is embedded as running prefix sums, and the
`np.min(np.where(...))` threshold lookup as the first index satisfying the
predicate, which exists exactly when `np.where` returns a nonempty index
set (otherwise `np.min` raises, embedded as `none`).
-/

/-- A row of the importance dataframe passed to `plot_feature_importances`:
columns `feature` and `importance`. -/
structure Row where
  feature : String
  importance : ℚ
deriving DecidableEq

/-- A row of the dataframe returned by `plot_feature_importances`: the input
columns plus `importance_normalized` and `cumulative_importance`. -/
structure OutRow where
  feature : String
  importance : ℚ
  importance_normalized : ℚ
  cumulative_importance : ℚ
deriving DecidableEq

/-- The ordering used by `df.sort_values('importance', ascending = False)`:
row `a` comes before row `b` when `a.importance ≥ b.importance`. -/
def impGe (a b : Row) : Prop := b.importance ≤ a.importance

instance : DecidableRel impGe :=
  fun a b => inferInstanceAs (Decidable (b.importance ≤ a.importance))

instance : IsTotal Row impGe := ⟨fun a b => le_total b.importance a.importance⟩

instance : IsTrans Row impGe := ⟨fun _ _ _ hab hbc => le_trans hbc hab⟩

/-- Embedding of `df.sort_values('importance', ascending = False)` followed
by `reset_index(drop = True)` (line 71): the rows reordered with the most
important first; in the list embedding the reset positional index is the
list position. -/
def sortByImportance (df : List Row) : List Row :=
  List.insertionSort impGe df

/-- Lines 74-75 applied to the already-sorted rows: each row is extended with
`importance_normalized = importance / total` (where `total` is the column sum
of `importance`) and with `cumulative_importance`, the running sum of the
normalized column, threaded through the accumulator `acc`. -/
def addCumulative (total : ℚ) : ℚ → List Row → List OutRow
  | _, [] => []
  | acc, r :: rs =>
    { feature := r.feature, importance := r.importance,
      importance_normalized := r.importance / total,
      cumulative_importance := acc + r.importance / total }
      :: addCumulative total (acc + r.importance / total) rs

/-- The dataframe returned by `plot_feature_importances` (lines 71-75 and 108):
sort descending by importance, normalize by the importance column sum, and
take the running sum of the normalized column. -/
def plot_feature_importances (df : List Row) : List OutRow :=
  addCumulative ((df.map Row.importance).sum) 0 (sortByImportance df)

/-- The `importance_normalized` column of the returned dataframe. -/
def normalizedColumn (df : List Row) : List ℚ :=
  (plot_feature_importances df).map OutRow.importance_normalized

/-- The `cumulative_importance` column of the returned dataframe. -/
def cumulativeColumn (df : List Row) : List ℚ :=
  (plot_feature_importances df).map OutRow.cumulative_importance

/-- Running prefix sums starting from `a`: the value of `np.cumsum` shifted
by an accumulator. -/
def prefixSums (a : ℚ) : List ℚ → List ℚ
  | [] => []
  | x :: xs => (a + x) :: prefixSums (a + x) xs

/-- Python truthiness of the `threshold` argument (line 90 `if threshold:`):
`None` and `0` (or `0.0`) are falsy, every other number is truthy. -/
def thresholdTruthy : Option ℚ → Bool
  | none => false
  | some t => if t = 0 then false else true

/-- Embedding of `np.min(np.where(cond))` over a boolean column: the least
index whose entry satisfies `p`, or `none` when no entry does (in which
case `np.where` is empty and `np.min` raises `ValueError`). -/
def firstIdxSatisfying (p : ℚ → Bool) : List ℚ → Option Nat
  | [] => none
  | x :: xs => if p x then some 0 else (firstIdxSatisfying p xs).map (· + 1)

/-- The full run of `plot_feature_importances df n threshold` (the plotting
side effects carry no data): `none` when the call raises, otherwise the
returned dataframe together with the reported number of features
`importance_index + 1` (lines 90-106), which is `none` when the threshold
branch is skipped. -/
def plot_feature_importances_run (df : List Row) (threshold : Option ℚ) :
    Option (List OutRow × Option Nat) :=
  let out := plot_feature_importances df
  if thresholdTruthy threshold then
    match threshold with
    | none => none
    | some t =>
      match firstIdxSatisfying (fun c => decide (t < c))
          (out.map OutRow.cumulative_importance) with
      | none => none
      | some i => some (out, some (i + 1))
  else
    some (out, none)

/-- A feature dataframe passed to `evaluate`: named columns and numeric rows
(one inner list of values per row). -/
structure MLFrame where
  columns : List String
  rows : List (List ℚ)

/-- A fitted regression model, abstracting
`RandomForestRegressor(...).fit(train, train_labels)`: a prediction function
and the fitted `feature_importances_` vector.  The library's contracts
(one prediction per input row, one importance per training column) are not
assumed here; the theorems take them as explicit hypotheses where needed. -/
structure FittedModel where
  predict : List (List ℚ) → List ℚ
  featureImportances : List ℚ

/-- The median of a list of rationals, as `numpy` computes it: middle element
of the sorted values, or the mean of the two middle elements. -/
def medianOf (l : List ℚ) : ℚ :=
  let s := List.insertionSort (· ≤ ·) l
  if l.length % 2 = 1 then s.getD (l.length / 2) 0
  else (s.getD (l.length / 2 - 1) 0 + s.getD (l.length / 2) 0) / 2

/-- Embedding of `sklearn.metrics.median_absolute_error(y_true, y_pred)`:
raises (`none`) unless the two vectors have the same, nonzero length;
otherwise the median of the absolute errors. -/
def median_absolute_error (y_true y_pred : List ℚ) : Option ℚ :=
  if y_true.length = y_pred.length ∧ y_true.length ≠ 0 then
    some (medianOf (List.zipWith (fun a b => |a - b|) y_true y_pred))
  else none

/-- Embedding of the `pd.DataFrame` constructor of lines 41-42, taking the
feature-name and importance column arrays: raises `ValueError` (`none`)
unless the two arrays have equal length; otherwise the table pairing each
name with its importance. -/
def pdDataFrame (names : List String) (imps : List ℚ) :
    Option (List (String × ℚ)) :=
  if names.length = imps.length then some (names.zip imps) else none

/-- The `evaluate` function (lines 11-44), parametrized by the sklearn
pieces it calls: `fit` abstracts fitting the random forest on the (imputed)
training matrix and labels, and `crossValScore` abstracts
`cross_val_score`, which may raise (`none`) e.g. on fewer samples than
folds.  Over exact rationals the `replace({inf: nan})` step and the
median `Imputer` are the identity (no `inf`/`NaN` is representable), so the
imputed matrices are the row lists themselves.  Returns `none` when any
library call raises, otherwise `(preds, feature_importances)`. -/
def evaluate (fit : List (List ℚ) → List ℚ → FittedModel)
    (crossValScore : List (List ℚ) → List ℚ → Option (List ℚ))
    (train : MLFrame) (train_labels : List ℚ)
    (test : MLFrame) (test_labels : List ℚ) :
    Option (List ℚ × List (String × ℚ)) :=
  let feature_names := train.columns
  match crossValScore train.rows train_labels with
  | none => none
  | some _ =>
    let model := fit train.rows train_labels
    let preds := model.predict test.rows
    match median_absolute_error test_labels preds with
    | none => none
    | some _ =>
      match pdDataFrame feature_names model.featureImportances with
      | none => none
      | some fi => some (preds, fi)

/-- A Python dataframe object for the heap model of
`plot_feature_importances`: the two base columns plus any columns added
by `__setitem__`, in insertion order. -/
structure PFrame where
  base : List Row
  extraCols : List (String × List ℚ)
deriving DecidableEq

/-- Heap model of the body of `plot_feature_importances` (lines 71-75):
the heap is a list of frame objects and the argument is a reference into
it.  `df.sort_values(...)` (with the default `inplace = False`) allocates a
fresh frame; the local name `df` is rebound to it, and both `__setitem__`
column assignments mutate that fresh frame, never the caller's object.
Returns the heap after the call and the reference to the returned frame. -/
def plotStateful (heap : List PFrame) (r : Nat) : List PFrame × Nat :=
  let df := (heap.getD r ⟨[], []⟩).base
  let result : PFrame :=
    { base := sortByImportance df,
      extraCols := [("importance_normalized", normalizedColumn df),
                    ("cumulative_importance", cumulativeColumn df)] }
  (heap ++ [result], heap.length)

lemma addCumulative_map_norm (t : ℚ) :
    ∀ (l : List Row) (a : ℚ),
      (addCumulative t a l).map OutRow.importance_normalized
        = l.map (fun r => r.importance / t)
  | [], _ => rfl
  | r :: rs, a => by
    simp [addCumulative, addCumulative_map_norm t rs]

lemma addCumulative_map_imp (t : ℚ) :
    ∀ (l : List Row) (a : ℚ),
      (addCumulative t a l).map OutRow.importance = l.map Row.importance
  | [], _ => rfl
  | r :: rs, a => by
    simp [addCumulative, addCumulative_map_imp t rs]

lemma addCumulative_map_pair (t : ℚ) :
    ∀ (l : List Row) (a : ℚ),
      (addCumulative t a l).map (fun r => (r.feature, r.importance))
        = l.map (fun r => (r.feature, r.importance))
  | [], _ => rfl
  | r :: rs, a => by
    simp [addCumulative, addCumulative_map_pair t rs]

lemma addCumulative_map_cum (t : ℚ) :
    ∀ (l : List Row) (a : ℚ),
      (addCumulative t a l).map OutRow.cumulative_importance
        = prefixSums a (l.map (fun r => r.importance / t))
  | [], _ => rfl
  | r :: rs, a => by
    simp [addCumulative, prefixSums, addCumulative_map_cum t rs]

lemma addCumulative_length (t : ℚ) :
    ∀ (l : List Row) (a : ℚ), (addCumulative t a l).length = l.length
  | [], _ => rfl
  | r :: rs, a => by
    simp [addCumulative, addCumulative_length t rs]

lemma sum_map_div (l : List Row) (t : ℚ) :
    (l.map (fun r => r.importance / t)).sum = (l.map Row.importance).sum / t := by
  induction l with
  | nil => simp
  | cons r rs ih => simp [ih, add_div]

lemma sortByImportance_perm (df : List Row) :
    List.Perm (sortByImportance df) df :=
  List.perm_insertionSort impGe df

lemma sortByImportance_length (df : List Row) :
    (sortByImportance df).length = df.length :=
  (sortByImportance_perm df).length_eq

lemma sorted_sum_eq (df : List Row) :
    ((sortByImportance df).map Row.importance).sum
      = (df.map Row.importance).sum :=
  ((sortByImportance_perm df).map Row.importance).sum_eq

lemma normalizedColumn_eq (df : List Row) :
    normalizedColumn df
      = (sortByImportance df).map
          (fun r => r.importance / (df.map Row.importance).sum) := by
  unfold normalizedColumn plot_feature_importances
  rw [addCumulative_map_norm]

lemma cumulativeColumn_eq (df : List Row) :
    cumulativeColumn df
      = prefixSums 0
          ((sortByImportance df).map
            (fun r => r.importance / (df.map Row.importance).sum)) := by
  unfold cumulativeColumn plot_feature_importances
  rw [addCumulative_map_cum]

lemma normalizedColumn_sum (df : List Row) :
    (normalizedColumn df).sum
      = (df.map Row.importance).sum / (df.map Row.importance).sum := by
  rw [normalizedColumn_eq, sum_map_div, sorted_sum_eq]

lemma prefixSums_length (l : List ℚ) : ∀ a : ℚ, (prefixSums a l).length = l.length := by
  induction l with
  | nil => intro a; rfl
  | cons x xs ih => intro a; simp [prefixSums, ih]

lemma prefixSums_chain (l : List ℚ) :
    ∀ a : ℚ, (∀ x ∈ l, 0 ≤ x) → List.Chain' (· ≤ ·) (prefixSums a l) := by
  induction l with
  | nil => intro a _; exact List.chain'_nil
  | cons x xs ih =>
    intro a h
    rw [prefixSums]
    cases xs with
    | nil => simp [prefixSums]
    | cons y ys =>
      have htail := ih (a + x) (fun z hz => h z (List.mem_cons_of_mem _ hz))
      rw [prefixSums] at htail ⊢
      refine List.chain'_cons.2 ⟨?_, htail⟩
      have hy : 0 ≤ y := h y (by simp)
      linarith

lemma prefixSums_le (l : List ℚ) :
    ∀ (a y : ℚ), (∀ x ∈ l, 0 ≤ x) → y ∈ prefixSums a l → y ≤ a + l.sum := by
  induction l with
  | nil => intro a y _ hy; simp [prefixSums] at hy
  | cons x xs ih =>
    intro a y h hy
    rw [prefixSums] at hy
    rcases List.mem_cons.1 hy with rfl | hy
    · have hs : 0 ≤ xs.sum :=
        List.sum_nonneg (fun z hz => h z (List.mem_cons_of_mem _ hz))
      simp only [List.sum_cons]
      linarith
    · have := ih (a + x) y (fun z hz => h z (List.mem_cons_of_mem _ hz)) hy
      simp only [List.sum_cons]
      linarith

lemma prefixSums_getLast (l : List ℚ) :
    ∀ a : ℚ, l ≠ [] → (prefixSums a l).getLast? = some (a + l.sum) := by
  induction l with
  | nil => intro a h; exact absurd rfl h
  | cons x xs ih =>
    intro a _
    cases xs with
    | nil => simp [prefixSums]
    | cons y ys =>
      have htail := ih (a + x) (by simp)
      rw [prefixSums] at htail
      rw [prefixSums, prefixSums, List.getLast?_cons_cons, htail]
      simp only [List.sum_cons]
      exact congrArg some (by ring)

lemma prefixSums_getD (l : List ℚ) :
    ∀ (a : ℚ) (i : Nat), i < l.length →
      (prefixSums a l).getD i 0 = a + (l.take (i + 1)).sum := by
  induction l with
  | nil => intro a i h; simp at h
  | cons x xs ih =>
    intro a i h
    cases i with
    | zero => simp [prefixSums]
    | succ n =>
      have hn : n < xs.length := by simpa using h
      rw [prefixSums]
      simp only [List.getD_cons_succ, List.take_succ_cons, List.sum_cons]
      rw [ih (a + x) n hn]
      ring

lemma cumulativeColumn_length (df : List Row) :
    (cumulativeColumn df).length = df.length := by
  rw [cumulativeColumn_eq, prefixSums_length, List.length_map,
    sortByImportance_length]

lemma cumulativeColumn_getD (df : List Row) (k : Nat) (hk : k < df.length) :
    (cumulativeColumn df).getD k 0 = ((normalizedColumn df).take (k + 1)).sum := by
  rw [cumulativeColumn_eq, normalizedColumn_eq]
  rw [prefixSums_getD]
  · rw [zero_add]
  · rw [List.length_map, sortByImportance_length]
    exact hk

lemma total_pos (df : List Row) (hpos : ∀ r ∈ df, 0 ≤ r.importance)
    (hsum : (df.map Row.importance).sum ≠ 0) :
    0 < (df.map Row.importance).sum := by
  have h0 : 0 ≤ (df.map Row.importance).sum := by
    refine List.sum_nonneg ?_
    intro x hx
    obtain ⟨r, hr, rfl⟩ := List.mem_map.1 hx
    exact hpos r hr
  exact lt_of_le_of_ne h0 (Ne.symm hsum)

lemma normalized_entries_nonneg (df : List Row)
    (hpos : ∀ r ∈ df, 0 ≤ r.importance)
    (hsum : (df.map Row.importance).sum ≠ 0) :
    ∀ x ∈ (sortByImportance df).map
        (fun r => r.importance / (df.map Row.importance).sum), 0 ≤ x := by
  intro x hx
  obtain ⟨r, hr, rfl⟩ := List.mem_map.1 hx
  have hrd : r ∈ df := (sortByImportance_perm df).mem_iff.1 hr
  exact div_nonneg (hpos r hrd) (total_pos df hpos hsum).le

lemma cumulativeColumn_le_one (df : List Row)
    (hpos : ∀ r ∈ df, 0 ≤ r.importance)
    (hsum : (df.map Row.importance).sum ≠ 0) :
    ∀ c ∈ cumulativeColumn df, c ≤ 1 := by
  intro c hc
  rw [cumulativeColumn_eq] at hc
  have := prefixSums_le _ 0 c (normalized_entries_nonneg df hpos hsum) hc
  rw [sum_map_div, sorted_sum_eq, div_self hsum] at this
  linarith

lemma firstIdxSatisfying_isSome_iff (p : ℚ → Bool) (l : List ℚ) :
    (firstIdxSatisfying p l).isSome ↔ ∃ x ∈ l, p x = true := by
  induction l with
  | nil => simp [firstIdxSatisfying]
  | cons x xs ih =>
    by_cases hx : p x
    · simp [firstIdxSatisfying, hx]
    · rw [firstIdxSatisfying, if_neg hx]
      constructor
      · intro hs
        cases hfi : firstIdxSatisfying p xs with
        | none => rw [hfi] at hs; simp at hs
        | some n =>
          obtain ⟨y, hy, hpy⟩ := ih.1 (by rw [hfi]; rfl)
          exact ⟨y, List.mem_cons_of_mem _ hy, hpy⟩
      · rintro ⟨y, hy, hpy⟩
        rcases List.mem_cons.1 hy with rfl | hy2
        · exact absurd hpy hx
        · have hs := ih.2 ⟨y, hy2, hpy⟩
          cases hfi : firstIdxSatisfying p xs with
          | none => rw [hfi] at hs; simp at hs
          | some n => rfl

lemma firstIdxSatisfying_eq_some (p : ℚ → Bool) (l : List ℚ) (i : Nat)
    (h : firstIdxSatisfying p l = some i) :
    i < l.length ∧ p (l.getD i 0) = true ∧ ∀ j, j < i → p (l.getD j 0) = false := by
  induction l generalizing i with
  | nil => simp [firstIdxSatisfying] at h
  | cons x xs ih =>
    by_cases hx : p x
    · rw [firstIdxSatisfying, if_pos hx] at h
      obtain rfl : (0 : Nat) = i := Option.some.inj h
      exact ⟨by simp, by simpa using hx, by omega⟩
    · rw [firstIdxSatisfying, if_neg hx] at h
      cases hfi : firstIdxSatisfying p xs with
      | none => rw [hfi] at h; simp at h
      | some n =>
        rw [hfi] at h
        obtain rfl : n + 1 = i := Option.some.inj h
        obtain ⟨h1, h2, h3⟩ := ih n hfi
        refine ⟨by simpa using h1, by simpa using h2, ?_⟩
        intro j hj
        cases j with
        | zero => simpa using hx
        | succ m =>
          rw [List.getD_cons_succ]
          exact h3 m (by omega)

lemma median_absolute_error_some_length {y_true y_pred : List ℚ} {m : ℚ}
    (h : median_absolute_error y_true y_pred = some m) :
    y_true.length = y_pred.length := by
  unfold median_absolute_error at h
  by_cases hc : y_true.length = y_pred.length ∧ y_true.length ≠ 0
  · exact hc.1
  · rw [if_neg hc] at h
    exact absurd h (by simp)

lemma map_imp_eq (df : List Row) :
    (plot_feature_importances df).map OutRow.importance
      = (sortByImportance df).map Row.importance := by
  unfold plot_feature_importances
  exact addCumulative_map_imp _ _ _

lemma map_pair_eq (df : List Row) :
    (plot_feature_importances df).map (fun r => (r.feature, r.importance))
      = (sortByImportance df).map (fun r => (r.feature, r.importance)) := by
  unfold plot_feature_importances
  exact addCumulative_map_pair _ _ _

lemma plot_length (df : List Row) :
    (plot_feature_importances df).length = df.length := by
  unfold plot_feature_importances
  rw [addCumulative_length, sortByImportance_length]

lemma pdDataFrame_eq_some {names : List String} {imps : List ℚ}
    {fi : List (String × ℚ)} (h : pdDataFrame names imps = some fi) :
    names.length = imps.length ∧ fi = names.zip imps := by
  unfold pdDataFrame at h
  by_cases hc : names.length = imps.length
  · rw [if_pos hc] at h
    exact ⟨hc, (Option.some.inj h).symm⟩
  · rw [if_neg hc] at h
    exact absurd h (by simp)

/-- C1: for every valid importance table (one whose importance values sum to
a nonzero total), the `importance_normalized` column of the table returned
by `plot_feature_importances` sums to 1 over the full table. -/
theorem c1_normalized_column_sums_to_one (df : List Row)
    (hsum : (df.map Row.importance).sum ≠ 0) :
    (normalizedColumn df).sum = 1 := by
  rw [normalizedColumn_sum]
  exact div_self hsum

theorem c1_witness :
    (([⟨"a", 1⟩, ⟨"b", 3⟩] : List Row).map Row.importance).sum ≠ 0 ∧
      (normalizedColumn [⟨"a", 1⟩, ⟨"b", 3⟩]).sum = 1 :=
  ⟨by norm_num, c1_normalized_column_sums_to_one _ (by norm_num)⟩

/-- C2: for every valid importance table (tree-model importances: every
importance nonnegative, with nonzero total), the `cumulative_importance`
column of the table returned by `plot_feature_importances` is non-decreasing
from row to row, every entry is at most 1, and the last entry equals 1. -/
theorem c2_cumulative_monotone_bounded (df : List Row)
    (hpos : ∀ r ∈ df, 0 ≤ r.importance)
    (hsum : (df.map Row.importance).sum ≠ 0) :
    List.Chain' (· ≤ ·) (cumulativeColumn df) ∧
      (∀ c ∈ cumulativeColumn df, c ≤ 1) ∧
      (cumulativeColumn df).getLast? = some 1 := by
  refine ⟨?_, cumulativeColumn_le_one df hpos hsum, ?_⟩
  · rw [cumulativeColumn_eq]
    exact prefixSums_chain _ 0 (normalized_entries_nonneg df hpos hsum)
  · have hdf : df ≠ [] := by
      intro hnil
      rw [hnil] at hsum
      simp at hsum
    have hlen : 0 < ((sortByImportance df).map
        (fun r => r.importance / (df.map Row.importance).sum)).length := by
      rw [List.length_map, sortByImportance_length]
      exact List.length_pos.2 hdf
    rw [cumulativeColumn_eq, prefixSums_getLast _ 0 (List.ne_nil_of_length_pos hlen),
      sum_map_div, sorted_sum_eq, div_self hsum, zero_add]

theorem c2_witness :
    (∀ r ∈ ([⟨"a", 1⟩, ⟨"b", 3⟩] : List Row), 0 ≤ r.importance) ∧
      (([⟨"a", 1⟩, ⟨"b", 3⟩] : List Row).map Row.importance).sum ≠ 0 ∧
      (List.Chain' (· ≤ ·) (cumulativeColumn [⟨"a", 1⟩, ⟨"b", 3⟩]) ∧
        (∀ c ∈ cumulativeColumn [⟨"a", 1⟩, ⟨"b", 3⟩], c ≤ 1) ∧
        (cumulativeColumn [⟨"a", 1⟩, ⟨"b", 3⟩]).getLast? = some 1) :=
  ⟨by norm_num, by norm_num,
    c2_cumulative_monotone_bounded _ (by norm_num) (by norm_num)⟩

/-- C3: for every importance table, the k-th entry (0-indexed) of the
`cumulative_importance` column of the table returned by
`plot_feature_importances` equals the sum of the first k+1 entries of the
`importance_normalized` column in the returned order. -/
theorem c3_cumulative_eq_prefix_sum (df : List Row) (k : Nat)
    (hk : k < df.length) :
    (cumulativeColumn df).getD k 0 = ((normalizedColumn df).take (k + 1)).sum :=
  cumulativeColumn_getD df k hk

theorem c3_witness :
    1 < ([⟨"a", 1⟩, ⟨"b", 3⟩] : List Row).length ∧
      (cumulativeColumn [⟨"a", 1⟩, ⟨"b", 3⟩]).getD 1 0
        = ((normalizedColumn [⟨"a", 1⟩, ⟨"b", 3⟩]).take 2).sum :=
  ⟨by decide, c3_cumulative_eq_prefix_sum _ 1 (by decide)⟩

/-- C4: the rows of the table returned by `plot_feature_importances` are
sorted by the `importance` column in non-increasing order, and the reset
positional index ranges over 0..len-1 (the output has the same length as the
input, with list position as index). -/
theorem c4_rows_sorted_descending (df : List Row) :
    List.Sorted (fun a b : ℚ => b ≤ a)
        ((plot_feature_importances df).map OutRow.importance) ∧
      (plot_feature_importances df).length = df.length := by
  refine ⟨?_, plot_length df⟩
  rw [map_imp_eq]
  have hs : List.Sorted impGe (sortByImportance df) :=
    List.sorted_insertionSort impGe df
  exact (List.pairwise_map).2 hs

/-- C9: passing threshold 0 behaves exactly as passing no threshold: the
guard tests Python truthiness, so the threshold branch is skipped and the
call returns the same dataframe with no feature count reported. -/
theorem c9_zero_threshold_like_none (df : List Row) :
    plot_feature_importances_run df (some 0)
      = plot_feature_importances_run df none := rfl

/-- C10: the table returned by `plot_feature_importances` has the same
number of rows as the input and its (feature, importance) pairs are a
permutation of the input's pairs. -/
theorem c10_rows_permutation (df : List Row) :
    List.Perm
        ((plot_feature_importances df).map (fun r => (r.feature, r.importance)))
        (df.map (fun r => (r.feature, r.importance))) ∧
      (plot_feature_importances df).length = df.length := by
  refine ⟨?_, plot_length df⟩
  rw [map_pair_eq]
  exact (sortByImportance_perm df).map _

/-- C5: whenever `evaluate` returns normally, the returned prediction vector
has the same length as `test_labels`; the guarantee comes from
`median_absolute_error`, which raises before `evaluate` can return if the
lengths differ. -/
theorem c5_predictions_length
    (fit : List (List ℚ) → List ℚ → FittedModel)
    (crossValScore : List (List ℚ) → List ℚ → Option (List ℚ))
    (train : MLFrame) (train_labels : List ℚ)
    (test : MLFrame) (test_labels : List ℚ)
    (preds : List ℚ) (fi : List (String × ℚ))
    (h : evaluate fit crossValScore train train_labels test test_labels
        = some (preds, fi)) :
    preds.length = test_labels.length := by
  unfold evaluate at h
  cases hcv : crossValScore train.rows train_labels with
  | none => rw [hcv] at h; exact absurd h (by simp)
  | some cv =>
    rw [hcv] at h
    simp only at h
    cases hm : median_absolute_error test_labels
        ((fit train.rows train_labels).predict test.rows) with
    | none => rw [hm] at h; exact absurd h (by simp)
    | some m =>
      rw [hm] at h
      cases hdf : pdDataFrame train.columns
          (fit train.rows train_labels).featureImportances with
      | none => rw [hdf] at h; exact absurd h (by simp)
      | some fi0 =>
        rw [hdf] at h
        have hpair := Option.some.inj h
        have hpreds : (fit train.rows train_labels).predict test.rows = preds :=
          congrArg Prod.fst hpair
        rw [← hpreds]
        exact (median_absolute_error_some_length hm).symm

theorem c5_witness :
    evaluate (fun _ _ => ⟨fun rows => rows.map (fun _ => 0), [1]⟩)
        (fun _ _ => some []) ⟨["a"], [[1]]⟩ [1] ⟨["a"], [[2]]⟩ [0]
      = some ([0], [("a", 1)]) ∧
      ([(0 : ℚ)] : List ℚ).length = ([(0 : ℚ)] : List ℚ).length :=
  ⟨rfl,
    c5_predictions_length (fun _ _ => ⟨fun rows => rows.map (fun _ => 0), [1]⟩)
      (fun _ _ => some []) ⟨["a"], [[1]]⟩ [1] ⟨["a"], [[2]]⟩ [0]
      [0] [("a", 1)] rfl⟩

/-- C6: whenever `evaluate` returns normally, the feature-importance table
has exactly one row per column of the input `train` frame, and the feature
column lists exactly those column names (each paired with its importance);
the `pd.DataFrame` constructor raises before return if the name and
importance arrays disagree in length. -/
theorem c6_importance_table_shape
    (fit : List (List ℚ) → List ℚ → FittedModel)
    (crossValScore : List (List ℚ) → List ℚ → Option (List ℚ))
    (train : MLFrame) (train_labels : List ℚ)
    (test : MLFrame) (test_labels : List ℚ)
    (preds : List ℚ) (fi : List (String × ℚ))
    (h : evaluate fit crossValScore train train_labels test test_labels
        = some (preds, fi)) :
    fi.length = train.columns.length ∧ fi.map Prod.fst = train.columns := by
  unfold evaluate at h
  cases hcv : crossValScore train.rows train_labels with
  | none => rw [hcv] at h; exact absurd h (by simp)
  | some cv =>
    rw [hcv] at h
    simp only at h
    cases hm : median_absolute_error test_labels
        ((fit train.rows train_labels).predict test.rows) with
    | none => rw [hm] at h; exact absurd h (by simp)
    | some m =>
      rw [hm] at h
      cases hdf : pdDataFrame train.columns
          (fit train.rows train_labels).featureImportances with
      | none => rw [hdf] at h; exact absurd h (by simp)
      | some fi0 =>
        rw [hdf] at h
        have hpair := Option.some.inj h
        have hfi : fi0 = fi := congrArg Prod.snd hpair
        obtain ⟨hlen, hzip⟩ := pdDataFrame_eq_some hdf
        rw [← hfi, hzip]
        constructor
        · rw [List.length_zip, hlen, min_self]
        · exact List.map_fst_zip _ _ (le_of_eq hlen)

theorem c6_witness :
    evaluate (fun _ _ => ⟨fun rows => rows.map (fun _ => 0), [1]⟩)
        (fun _ _ => some []) ⟨["a"], [[1]]⟩ [1] ⟨["a"], [[2]]⟩ [0]
      = some ([0], [("a", 1)]) ∧
      (([("a", (1 : ℚ))].length = (["a"] : List String).length) ∧
        [("a", (1 : ℚ))].map Prod.fst = ["a"]) :=
  ⟨rfl,
    c6_importance_table_shape (fun _ _ => ⟨fun rows => rows.map (fun _ => 0), [1]⟩)
      (fun _ _ => some []) ⟨["a"], [[1]]⟩ [1] ⟨["a"], [[2]]⟩ [0]
      [0] [("a", 1)] rfl⟩

/-- C7: `plot_feature_importances` does not mutate its argument: after the
call the caller's frame object is unchanged on the heap (the result lives in
a freshly allocated object, to which the sort result and both added columns
are confined), and the returned reference is a different object holding the
sorted rows plus the two added columns. -/
theorem c7_input_not_mutated (heap : List PFrame) (r : Nat)
    (h : r < heap.length) :
    (plotStateful heap r).1.getD r ⟨[], []⟩ = heap.getD r ⟨[], []⟩ ∧
      (plotStateful heap r).2 ≠ r ∧
      (plotStateful heap r).1.getD (plotStateful heap r).2 ⟨[], []⟩
        = ⟨sortByImportance (heap.getD r ⟨[], []⟩).base,
            [("importance_normalized", normalizedColumn (heap.getD r ⟨[], []⟩).base),
             ("cumulative_importance", cumulativeColumn (heap.getD r ⟨[], []⟩).base)]⟩ := by
  unfold plotStateful
  refine ⟨List.getD_append _ _ _ _ h, Nat.ne_of_gt h, ?_⟩
  rw [List.getD_append_right _ _ _ _ (le_refl _)]
  simp

theorem c7_witness :
    0 < ([(⟨[⟨"a", 1⟩], []⟩ : PFrame)] : List PFrame).length ∧
      ((plotStateful [⟨[⟨"a", 1⟩], []⟩] 0).1.getD 0 ⟨[], []⟩
          = ([(⟨[⟨"a", 1⟩], []⟩ : PFrame)] : List PFrame).getD 0 ⟨[], []⟩ ∧
        (plotStateful [⟨[⟨"a", 1⟩], []⟩] 0).2 ≠ 0 ∧
        (plotStateful [⟨[⟨"a", 1⟩], []⟩] 0).1.getD
            (plotStateful [⟨[⟨"a", 1⟩], []⟩] 0).2 ⟨[], []⟩
          = ⟨sortByImportance (([(⟨[⟨"a", 1⟩], []⟩ : PFrame)] : List PFrame).getD 0 ⟨[], []⟩).base,
              [("importance_normalized",
                  normalizedColumn (([(⟨[⟨"a", 1⟩], []⟩ : PFrame)] : List PFrame).getD 0 ⟨[], []⟩).base),
               ("cumulative_importance",
                  cumulativeColumn (([(⟨[⟨"a", 1⟩], []⟩ : PFrame)] : List PFrame).getD 0 ⟨[], []⟩).base)]⟩) :=
  ⟨by decide, c7_input_not_mutated [⟨[⟨"a", 1⟩], []⟩] 0 (by decide)⟩

lemma run_truthy_eq (df : List Row) (t : ℚ)
    (ht : thresholdTruthy (some t) = true) :
    plot_feature_importances_run df (some t)
      = match firstIdxSatisfying (fun c => decide (t < c)) (cumulativeColumn df) with
        | none => none
        | some i => some (plot_feature_importances df, some (i + 1)) := by
  unfold plot_feature_importances_run
  rw [ht]
  rfl

/-- C8 counterexample: the threshold -1/2 is truthy, and on the table
[(a, 1), (b, 3)] the call completes reporting 1 feature; yet the cumulative
importance of the top 0 features (the empty sum, 0) already strictly
exceeds -1/2, so the reported count is not the smallest k whose top-k
cumulative importance strictly exceeds the threshold. -/
theorem c8_counterexample :
    thresholdTruthy (some (-(1/2))) = true ∧
      plot_feature_importances_run [⟨"a", 1⟩, ⟨"b", 3⟩] (some (-(1/2)))
        = some (plot_feature_importances [⟨"a", 1⟩, ⟨"b", 3⟩], some 1) ∧
      ¬ ∀ j, j < 1 → ((normalizedColumn [⟨"a", 1⟩, ⟨"b", 3⟩]).take j).sum ≤ -(1/2) := by
  have htt : thresholdTruthy (some (-(1/2) : ℚ)) = true := by
    norm_num [thresholdTruthy]
  have hc : cumulativeColumn [⟨"a", 1⟩, ⟨"b", 3⟩] = [3/4, 1] := by
    norm_num [cumulativeColumn, plot_feature_importances, sortByImportance,
      addCumulative, impGe]
  refine ⟨htt, ?_, ?_⟩
  · rw [run_truthy_eq _ _ htt, hc]
    norm_num [firstIdxSatisfying]
  · intro hall
    have h0 := hall 0 (by omega)
    norm_num at h0

/-- C8 (amended): with a truthy (nonzero) threshold, the call completes
without error iff some entry of the cumulative-importance column strictly
exceeds the threshold (so a threshold at least 1 makes a valid-table call
raise, third conjunct); when it completes, the reported number of features
is the smallest positive k whose top-k cumulative normalized importance
strictly exceeds the threshold. -/
theorem c8_threshold_lookup (df : List Row) (t : ℚ)
    (ht : thresholdTruthy (some t) = true) :
    ((plot_feature_importances_run df (some t)).isSome
        ↔ ∃ c ∈ cumulativeColumn df, t < c) ∧
      (∀ out k,
        plot_feature_importances_run df (some t) = some (out, some k) →
        1 ≤ k ∧ t < ((normalizedColumn df).take k).sum ∧
          ∀ j, 1 ≤ j → j < k → ((normalizedColumn df).take j).sum ≤ t) ∧
      ((∀ r ∈ df, 0 ≤ r.importance) → (df.map Row.importance).sum ≠ 0 →
        1 ≤ t → plot_feature_importances_run df (some t) = none) := by
  have hrun := run_truthy_eq df t ht
  have hsome_eq : (plot_feature_importances_run df (some t)).isSome
      = (firstIdxSatisfying (fun c => decide (t < c)) (cumulativeColumn df)).isSome := by
    rw [hrun]
    cases firstIdxSatisfying (fun c => decide (t < c)) (cumulativeColumn df) <;> rfl
  have hiff : (plot_feature_importances_run df (some t)).isSome = true
      ↔ ∃ c ∈ cumulativeColumn df, t < c := by
    rw [hsome_eq, firstIdxSatisfying_isSome_iff]
    constructor
    · rintro ⟨c, hc, hdc⟩
      exact ⟨c, hc, of_decide_eq_true hdc⟩
    · rintro ⟨c, hc, htc⟩
      exact ⟨c, hc, decide_eq_true htc⟩
  refine ⟨hiff, ?_, ?_⟩
  · intro out k h
    rw [hrun] at h
    cases hfi : firstIdxSatisfying (fun c => decide (t < c)) (cumulativeColumn df) with
    | none => rw [hfi] at h; exact absurd h (by simp)
    | some i =>
      rw [hfi] at h
      have hpair := Option.some.inj h
      have hk : some (i + 1) = some k := congrArg Prod.snd hpair
      obtain rfl : i + 1 = k := Option.some.inj hk
      obtain ⟨hilen, hpi, hpj⟩ := firstIdxSatisfying_eq_some _ _ _ hfi
      have hlen' : i < df.length := by
        rw [cumulativeColumn_length] at hilen
        exact hilen
      refine ⟨by omega, ?_, ?_⟩
      · have hti := of_decide_eq_true hpi
        rw [cumulativeColumn_getD df i hlen'] at hti
        exact hti
      · intro j hj1 hjk
        cases j with
        | zero => omega
        | succ m =>
          have hm : m < i := by omega
          have hnlt : ¬ (t < (cumulativeColumn df).getD m 0) :=
            of_decide_eq_false (hpj m hm)
          have hle := not_lt.1 hnlt
          have hmlen : m < df.length := by omega
          rw [cumulativeColumn_getD df m hmlen] at hle
          exact hle
  · intro hpos hsum hget
    have hnotex : ¬ ∃ c ∈ cumulativeColumn df, t < c := by
      rintro ⟨c, hc, htc⟩
      have hc1 := cumulativeColumn_le_one df hpos hsum c hc
      linarith
    have hns : ¬ (plot_feature_importances_run df (some t)).isSome = true :=
      fun hs => hnotex (hiff.1 hs)
    exact Option.not_isSome_iff_eq_none.1 hns

theorem c8_witness :
    thresholdTruthy (some ((1 : ℚ)/2)) = true ∧
      (((plot_feature_importances_run [⟨"a", 1⟩, ⟨"b", 3⟩] (some (1/2))).isSome
          ↔ ∃ c ∈ cumulativeColumn [⟨"a", 1⟩, ⟨"b", 3⟩], 1/2 < c) ∧
        (∀ out k,
          plot_feature_importances_run [⟨"a", 1⟩, ⟨"b", 3⟩] (some (1/2))
              = some (out, some k) →
          1 ≤ k ∧ 1/2 < ((normalizedColumn [⟨"a", 1⟩, ⟨"b", 3⟩]).take k).sum ∧
            ∀ j, 1 ≤ j → j < k →
              ((normalizedColumn [⟨"a", 1⟩, ⟨"b", 3⟩]).take j).sum ≤ 1/2) ∧
        ((∀ r ∈ ([⟨"a", 1⟩, ⟨"b", 3⟩] : List Row), 0 ≤ r.importance) →
          (([⟨"a", 1⟩, ⟨"b", 3⟩] : List Row).map Row.importance).sum ≠ 0 →
          1 ≤ (1 : ℚ)/2 →
          plot_feature_importances_run [⟨"a", 1⟩, ⟨"b", 3⟩] (some (1/2)) = none)) :=
  ⟨by norm_num [thresholdTruthy],
    c8_threshold_lookup [⟨"a", 1⟩, ⟨"b", 3⟩] (1/2) (by norm_num [thresholdTruthy])⟩
